import Mathlib

/-!
Shallow embedding of the lab2 ray tracer core
(src/lab2/raytracer_base_code: include/sphere.h, include/scene.h,
include/camera.h, include/material.h, include/hittable.h, src/renderer.cpp).
C++ doubles are modelled as real numbers; std::sqrt as Real.sqrt, pow as
Real.rpow, M_PI as Real.pi.  Fallible intersection routines (bool return +
Hit out-parameter written only on success) are modelled as Option Hit.
-/

namespace RT

/-- Modelled from the spec: vec3.h is absent from the sources.  The spec's
data model says Vec3 is an (x,y,z) double-precision triple supporting
add, sub, scale, dot, cross, normalize, length and elementwise multiply
(hadamard); all call sites in the present sources use exactly these. -/
structure Vec3 where
  x : ℝ
  y : ℝ
  z : ℝ

instance : Add Vec3 := ⟨fun a b => ⟨a.x + b.x, a.y + b.y, a.z + b.z⟩⟩

instance : Sub Vec3 := ⟨fun a b => ⟨a.x - b.x, a.y - b.y, a.z - b.z⟩⟩

instance : Neg Vec3 := ⟨fun a => ⟨-a.x, -a.y, -a.z⟩⟩

instance : Zero Vec3 := ⟨⟨0, 0, 0⟩⟩

instance : HMul ℝ Vec3 Vec3 := ⟨fun k v => ⟨k * v.x, k * v.y, k * v.z⟩⟩

instance : HMul Vec3 ℝ Vec3 := ⟨fun v k => ⟨v.x * k, v.y * k, v.z * k⟩⟩

noncomputable instance : HDiv Vec3 ℝ Vec3 := ⟨fun v k => ⟨v.x / k, v.y / k, v.z / k⟩⟩

@[simp] theorem Vec3.add_x (a b : Vec3) : (a + b).x = a.x + b.x := rfl

@[simp] theorem Vec3.add_y (a b : Vec3) : (a + b).y = a.y + b.y := rfl

@[simp] theorem Vec3.add_z (a b : Vec3) : (a + b).z = a.z + b.z := rfl

@[simp] theorem Vec3.sub_x (a b : Vec3) : (a - b).x = a.x - b.x := rfl

@[simp] theorem Vec3.sub_y (a b : Vec3) : (a - b).y = a.y - b.y := rfl

@[simp] theorem Vec3.sub_z (a b : Vec3) : (a - b).z = a.z - b.z := rfl

@[simp] theorem Vec3.neg_x (a : Vec3) : (-a).x = -a.x := rfl

@[simp] theorem Vec3.neg_y (a : Vec3) : (-a).y = -a.y := rfl

@[simp] theorem Vec3.neg_z (a : Vec3) : (-a).z = -a.z := rfl

@[simp] theorem Vec3.smul_x (k : ℝ) (v : Vec3) : (k * v).x = k * v.x := rfl

@[simp] theorem Vec3.smul_y (k : ℝ) (v : Vec3) : (k * v).y = k * v.y := rfl

@[simp] theorem Vec3.smul_z (k : ℝ) (v : Vec3) : (k * v).z = k * v.z := rfl

@[simp] theorem Vec3.mulk_x (v : Vec3) (k : ℝ) : (v * k).x = v.x * k := rfl

@[simp] theorem Vec3.mulk_y (v : Vec3) (k : ℝ) : (v * k).y = v.y * k := rfl

@[simp] theorem Vec3.mulk_z (v : Vec3) (k : ℝ) : (v * k).z = v.z * k := rfl

@[simp] theorem Vec3.divk_x (v : Vec3) (k : ℝ) : (v / k).x = v.x / k := rfl

@[simp] theorem Vec3.divk_y (v : Vec3) (k : ℝ) : (v / k).y = v.y / k := rfl

@[simp] theorem Vec3.divk_z (v : Vec3) (k : ℝ) : (v / k).z = v.z / k := rfl

@[simp] theorem Vec3.zero_x : (0 : Vec3).x = 0 := rfl

@[simp] theorem Vec3.zero_y : (0 : Vec3).y = 0 := rfl

@[simp] theorem Vec3.zero_z : (0 : Vec3).z = 0 := rfl

theorem Vec3.eq_iff {a b : Vec3} : a = b ↔ a.x = b.x ∧ a.y = b.y ∧ a.z = b.z := by
  constructor
  · rintro rfl; exact ⟨rfl, rfl, rfl⟩
  · rcases a with ⟨ax, ay, az⟩
    rcases b with ⟨bx, by', bz⟩
    rintro ⟨h1, h2, h3⟩
    simp_all

/-- Dot product of two vectors. -/
def dot (a b : Vec3) : ℝ := a.x * b.x + a.y * b.y + a.z * b.z

/-- Cross product of two vectors. -/
def cross (a b : Vec3) : Vec3 :=
  ⟨a.y * b.z - a.z * b.y, a.z * b.x - a.x * b.z, a.x * b.y - a.y * b.x⟩

/-- Elementwise (Hadamard) product. -/
def hadamard (a b : Vec3) : Vec3 := ⟨a.x * b.x, a.y * b.y, a.z * b.z⟩

/-- Euclidean length. -/
noncomputable def length (v : Vec3) : ℝ := Real.sqrt (dot v v)

/-- Unit vector in the direction of v (division by the length). -/
noncomputable def normalize (v : Vec3) : Vec3 := v / length v

/-- Modelled from the spec: ray.h is absent from the sources.  The spec's
data model says a Ray is an origin point plus a direction vector with
at(t) evaluating origin + t*direction; the constructor stores the two
fields (camera.h and renderer.cpp normalize explicitly at the call sites
that want a unit direction). -/
structure Ray where
  o : Vec3
  d : Vec3

/-- Ray.at from the spec: origin + t*direction. -/
def Ray.at (r : Ray) (t : ℝ) : Vec3 := r.o + t * r.d

/-- Hit record from include/hittable.h. -/
structure Hit where
  t : ℝ
  p : Vec3
  n : Vec3
  matId : ℕ
  hit : Bool

/-- Default-constructed Hit (hit=false per hittable.h; the other fields are
never read before being written by an intersect routine). -/
def defaultHit : Hit := ⟨0, 0, 0, 0, false⟩

/-- Material from include/material.h. -/
structure Material where
  albedo : Vec3
  reflective : Bool

/-- Default Material (albedo {0.8,0.8,0.8}, non-reflective) per material.h. -/
def defaultMaterial : Material := ⟨⟨0.8, 0.8, 0.8⟩, false⟩

/-- PointLight from include/scene.h. -/
structure PointLight where
  pos : Vec3
  intensity : Vec3

/-- Sphere from include/sphere.h: center, radius, material id. -/
structure Sphere where
  c : Vec3
  R : ℝ
  matId : ℕ

/-- Sphere::intersect from include/sphere.h, lines 13-38.  The C++ returns
bool and writes the Hit out-parameter rec only on the success path; this is
modelled as Option Hit. -/
noncomputable def Sphere.intersect (s : Sphere) (r : Ray) (tmin tmax : ℝ) : Option Hit :=
  let oc := r.o - s.c
  let a := dot r.d r.d
  let b := dot oc r.d
  let c2 := dot oc oc - s.R * s.R
  let disc := b * b - a * c2
  if disc < 0 then none
  else
    let sdisc := Real.sqrt disc
    let t1 := (-b - sdisc) / a
    if t1 < tmin ∨ t1 > tmax then
      let t2 := (-b + sdisc) / a
      if t2 < tmin ∨ t2 > tmax then none
      else some ⟨t2, r.at t2, normalize (r.at t2 - s.c), s.matId, true⟩
    else some ⟨t1, r.at t1, normalize (r.at t1 - s.c), s.matId, true⟩

/-- Scene from include/scene.h.  The only concrete Hittable present in the
sources is Sphere (plane.h / triangle.h are not in the repository snapshot),
so the polymorphic object list is a list of spheres. -/
structure Scene where
  objects : List Sphere
  materials : List Material
  lights : List PointLight

/-- One iteration of the loop body of Scene::intersect: state is
(hitAny, closest, best). -/
noncomputable def sceneStep (r : Ray) (tmin : ℝ) (st : Bool × ℝ × Hit) (obj : Sphere) :
    Bool × ℝ × Hit :=
  match Sphere.intersect obj r tmin st.2.1 with
  | some temp => (true, temp.t, temp)
  | none => st

/-- Scene::intersect from include/scene.h, lines 26-38: linear scan with a
shrinking upper bound closest starting at tmax; returns the bool result
together with the final value of the out-parameter best. -/
noncomputable def Scene.intersect (objects : List Sphere) (r : Ray) (tmin tmax : ℝ)
    (best : Hit) : Bool × Hit :=
  let st := objects.foldl (sceneStep r tmin) (false, tmax, best)
  (st.1, st.2.2)

/-- The parameter t solves the ray-sphere equation: the point r.at t lies on
the surface of sphere s. -/
def onSphere (s : Sphere) (r : Ray) (t : ℝ) : Prop :=
  dot (r.at t - s.c) (r.at t - s.c) = s.R * s.R

/-- Renderer epsilon field (renderer.cpp constructor, eps(1e-4)). -/
noncomputable def epsR : ℝ := 1e-4

/-- The shadow ray constructed inside Renderer::inShadow (renderer.cpp lines
73-84): origin p + n*eps, direction (L.pos - p) divided by its length. -/
noncomputable def shadowRay (p n : Vec3) (L : PointLight) : Ray :=
  let toL := L.pos - p
  let distL := length toL
  let dir := toL / distL
  ⟨p + n * epsR, dir⟩

/-- Renderer::inShadow from renderer.cpp lines 73-84. -/
noncomputable def inShadow (sc : Scene) (p n : Vec3) (L : PointLight) : Bool :=
  (Scene.intersect sc.objects (shadowRay p n L) 0 (length (L.pos - p) - 1e-5) defaultHit).1

/-- The reflected ray constructed inside Renderer::reflect (renderer.cpp
lines 86-91): in_vec = h.p - r.o, ref_vec = in_vec - 2*dot(in_vec, n̂)*n̂
with n̂ = normalize h.n, ray (h.p, ref_vec). -/
noncomputable def reflRay (h : Hit) (r : Ray) : Ray :=
  let in_vec := h.p - r.o
  let ref_vec := in_vec - (2 * dot in_vec (normalize h.n)) * normalize h.n
  ⟨h.p, ref_vec⟩

/-- The direct-lighting accumulation loop of Renderer::shade (renderer.cpp
lines 99-111), for a non-reflective material of the given albedo. -/
noncomputable def directLight (sc : Scene) (albedo : Vec3) (h : Hit) : Vec3 :=
  sc.lights.foldl
    (fun c L =>
      if inShadow sc h.p h.n L then c
      else
        let wi := normalize (L.pos - h.p)
        let ndotl := max 0 (dot h.n wi)
        let Li := L.intensity / (4 * Real.pi * dot (L.pos - h.p) (L.pos - h.p))
        c + hadamard albedo Li * ndotl)
    0

/-- The sky gradient returned by Renderer::trace on a miss (renderer.cpp
lines 119-121). -/
noncomputable def skyColor (r : Ray) : Vec3 :=
  let u := normalize r.d
  let t := 0.5 * (u.y + 1)
  (1 - t) * (⟨1, 1, 1⟩ : Vec3) + t * (⟨0.6, 0.8, 1.0⟩ : Vec3)

/-- Renderer::trace (renderer.cpp lines 114-122), with an explicit fuel
parameter to account for the unbounded mutual recursion
trace → shade → reflect → trace of the C++: none means the fuel was
exhausted before the recursion bottomed out.  Fuel is consumed exactly at
the recursive trace call made for a reflective hit, so traceF n r = some v
if and only if the C++ call returns v after fewer than n reflective
bounces. -/
noncomputable def traceF (sc : Scene) : ℕ → Ray → Option Vec3
  | 0, _ => none
  | Nat.succ n, r =>
    let res := Scene.intersect sc.objects r 1e-6 1e9 defaultHit
    if res.1 then
      let m := sc.materials.getD res.2.matId defaultMaterial
      if m.reflective then traceF sc n (reflRay res.2 r)
      else some (directLight sc m.albedo res.2)
    else some (skyColor r)

/-- Renderer::shade (renderer.cpp lines 93-112) at the given fuel level:
look up the hit material; reflective materials return the traced reflection
ray directly, others the direct-lighting sum. -/
noncomputable def shadeF (sc : Scene) (n : ℕ) (h : Hit) (r : Ray) : Option Vec3 :=
  let m := sc.materials.getD h.matId defaultMaterial
  if m.reflective then traceF sc n (reflRay h r)
  else some (directLight sc m.albedo h)

/-- Renderer::toSRGB (renderer.cpp lines 124-127): clamp below at 0, then
pow(c, 1/gamma). -/
noncomputable def toSRGB (gamma c : ℝ) : ℝ := (max 0 c) ^ (1 / gamma)

/-- Reinhard compression c/(1+c) applied per channel in renderPPM
(renderer.cpp lines 48-50). -/
noncomputable def reinhard (c : ℝ) : ℝ := c / (1 + c)

/-- Clamp of v to [lo, hi] (std::clamp; lo ≤ hi at every call site). -/
noncomputable def clamp (v lo hi : ℝ) : ℝ := max lo (min v hi)

/-- Per-channel quantization performed in renderPPM (renderer.cpp lines
53-55) after the Reinhard step: clamp(toSRGB c, 0, 1) * 255.99 truncated to
an unsigned byte. -/
noncomputable def quantizeChannel (gamma c : ℝ) : ℕ :=
  ⌊clamp (toSRGB gamma (reinhard c)) 0 1 * 255.99⌋₊

/-- Camera from include/camera.h; the derived fields are computed by
mkCamera exactly as in the C++ constructor. -/
structure Camera where
  eye : Vec3
  look : Vec3
  up : Vec3
  vfov : ℝ
  W : ℕ
  H : ℕ
  u : Vec3
  v : Vec3
  w : Vec3
  aspect : ℝ
  halfH : ℝ
  halfW : ℝ

/-- Camera constructor from include/camera.h lines 15-19. -/
noncomputable def mkCamera (eye look up : Vec3) (vfov_deg : ℝ) (W H : ℕ) : Camera :=
  let vfov := vfov_deg * (Real.pi / 180)
  let aspect := (W : ℝ) / (H : ℝ)
  let halfH := Real.tan (vfov / 2)
  let halfW := aspect * halfH
  let w := normalize (eye - look)
  let u := normalize (cross up w)
  let v := cross w u
  ⟨eye, look, up, vfov, W, H, u, v, w, aspect, halfH, halfW⟩

/-- Camera::primary from include/camera.h lines 22-24. -/
noncomputable def Camera.primary (cam : Camera) (sx sy : ℝ) : Ray :=
  let dir := normalize (-cam.w + (sx * cam.halfW) * cam.u + (sy * cam.halfH) * cam.v)
  ⟨cam.eye, dir⟩

/-- Coefficient a = dot(d,d) of the ray-sphere quadratic (sphere.h line 15). -/
def sphA (r : Ray) : ℝ := dot r.d r.d

/-- Coefficient b = dot(oc,d) of the ray-sphere quadratic (sphere.h line 16). -/
def sphB (s : Sphere) (r : Ray) : ℝ := dot (r.o - s.c) r.d

/-- Coefficient c2 = dot(oc,oc) - R*R (sphere.h line 17). -/
def sphC2 (s : Sphere) (r : Ray) : ℝ :=
  dot (r.o - s.c) (r.o - s.c) - s.R * s.R

/-- Discriminant b*b - a*c2 (sphere.h line 18). -/
def sphDisc (s : Sphere) (r : Ray) : ℝ := sphB s r * sphB s r - sphA r * sphC2 s r

/-- Smaller candidate root (-b - sqrt(disc)) / a (sphere.h line 24). -/
noncomputable def sphT1 (s : Sphere) (r : Ray) : ℝ :=
  (-(sphB s r) - Real.sqrt (sphDisc s r)) / sphA r

/-- Larger candidate root (-b + sqrt(disc)) / a (sphere.h line 27). -/
noncomputable def sphT2 (s : Sphere) (r : Ray) : ℝ :=
  (-(sphB s r) + Real.sqrt (sphDisc s r)) / sphA r

theorem Sphere.intersect_def (s : Sphere) (r : Ray) (tmin tmax : ℝ) :
    Sphere.intersect s r tmin tmax =
      if sphDisc s r < 0 then none
      else
        if sphT1 s r < tmin ∨ sphT1 s r > tmax then
          if sphT2 s r < tmin ∨ sphT2 s r > tmax then none
          else some ⟨sphT2 s r, r.at (sphT2 s r), normalize (r.at (sphT2 s r) - s.c),
            s.matId, true⟩
        else some ⟨sphT1 s r, r.at (sphT1 s r), normalize (r.at (sphT1 s r) - s.c),
          s.matId, true⟩ := rfl

theorem dot_self_nonneg (v : Vec3) : 0 ≤ dot v v := by
  unfold dot
  nlinarith [mul_self_nonneg v.x, mul_self_nonneg v.y, mul_self_nonneg v.z]

theorem dot_self_pos (v : Vec3) (hv : v ≠ 0) : 0 < dot v v := by
  rcases (dot_self_nonneg v).lt_or_eq with h | h
  · exact h
  · exfalso
    apply hv
    rw [Vec3.eq_iff]
    unfold dot at h
    simp only [Vec3.zero_x, Vec3.zero_y, Vec3.zero_z]
    refine ⟨?_, ?_, ?_⟩ <;>
      nlinarith [mul_self_nonneg v.x, mul_self_nonneg v.y, mul_self_nonneg v.z]

theorem onSphere_iff_quad (s : Sphere) (r : Ray) (t : ℝ) :
    onSphere s r t ↔ sphA r * (t * t) + 2 * sphB s r * t + sphC2 s r = 0 := by
  have key : dot (r.at t - s.c) (r.at t - s.c) - s.R * s.R =
      sphA r * (t * t) + 2 * sphB s r * t + sphC2 s r := by
    simp only [dot, Ray.at, sphA, sphB, sphC2, Vec3.add_x, Vec3.add_y, Vec3.add_z,
      Vec3.sub_x, Vec3.sub_y, Vec3.sub_z, Vec3.smul_x, Vec3.smul_y, Vec3.smul_z]
    ring
  unfold onSphere
  rw [← sub_eq_zero, key]

theorem quad_roots (a b c2 : ℝ) (ha : a ≠ 0) (hdisc : 0 ≤ b * b - a * c2) (t : ℝ) :
    a * (t * t) + 2 * b * t + c2 = 0 ↔
      t = (-b - Real.sqrt (b * b - a * c2)) / a ∨
      t = (-b + Real.sqrt (b * b - a * c2)) / a := by
  have hs : discrim a (2 * b) c2 =
      (2 * Real.sqrt (b * b - a * c2)) * (2 * Real.sqrt (b * b - a * c2)) := by
    rw [discrim]
    linear_combination (-4 : ℝ) * Real.mul_self_sqrt hdisc
  have h2 := quadratic_eq_zero_iff ha hs t
  have e1 : (-(2 * b) + 2 * Real.sqrt (b * b - a * c2)) / (2 * a) =
      (-b + Real.sqrt (b * b - a * c2)) / a := by
    rw [show -(2 * b) + 2 * Real.sqrt (b * b - a * c2) =
      2 * (-b + Real.sqrt (b * b - a * c2)) by ring]
    exact mul_div_mul_left _ _ two_ne_zero
  have e2 : (-(2 * b) - 2 * Real.sqrt (b * b - a * c2)) / (2 * a) =
      (-b - Real.sqrt (b * b - a * c2)) / a := by
    rw [show -(2 * b) - 2 * Real.sqrt (b * b - a * c2) =
      2 * (-b - Real.sqrt (b * b - a * c2)) by ring]
    exact mul_div_mul_left _ _ two_ne_zero
  rw [show a * (t * t) + 2 * b * t + c2 = a * (t * t) + (2 * b) * t + c2 by ring, h2,
    e1, e2]
  exact or_comm

theorem quad_no_roots (a b c2 : ℝ) (hdisc : b * b - a * c2 < 0) (t : ℝ) :
    a * (t * t) + 2 * b * t + c2 ≠ 0 := by
  have h := quadratic_ne_zero_of_discrim_ne_sq
    (a := a) (b := 2 * b) (c := c2) (fun s => by
      rw [discrim]
      intro hcon
      nlinarith [sq_nonneg s]) t
  intro hcon
  exact h (by linarith [hcon])

theorem onSphere_iff_roots (s : Sphere) (r : Ray) (ha : sphA r ≠ 0)
    (hdisc : 0 ≤ sphDisc s r) (t : ℝ) :
    onSphere s r t ↔ t = sphT1 s r ∨ t = sphT2 s r := by
  rw [onSphere_iff_quad]
  have hd : 0 ≤ sphB s r * sphB s r - sphA r * sphC2 s r := hdisc
  have := quad_roots (sphA r) (sphB s r) (sphC2 s r) ha hd t
  rw [this]
  unfold sphT1 sphT2 sphDisc
  tauto

theorem onSphere_no_roots (s : Sphere) (r : Ray) (hdisc : sphDisc s r < 0) (t : ℝ) :
    ¬ onSphere s r t := by
  rw [onSphere_iff_quad]
  exact quad_no_roots (sphA r) (sphB s r) (sphC2 s r) hdisc t

theorem sphT1_le_sphT2 (s : Sphere) (r : Ray) (ha : 0 < sphA r) :
    sphT1 s r ≤ sphT2 s r := by
  unfold sphT1 sphT2
  have hnum : -(sphB s r) - Real.sqrt (sphDisc s r) ≤
      -(sphB s r) + Real.sqrt (sphDisc s r) := by
    nlinarith [Real.sqrt_nonneg (sphDisc s r)]
  exact (div_le_div_iff_of_pos_right ha).mpr hnum

theorem sphere_some_spec (s : Sphere) (r : Ray) (tmin tmax : ℝ) (h : Hit)
    (ha : 0 < sphA r) (hsome : Sphere.intersect s r tmin tmax = some h) :
    tmin ≤ h.t ∧ h.t ≤ tmax ∧ onSphere s r h.t ∧
      (∀ t, tmin ≤ t → t ≤ tmax → onSphere s r t → h.t ≤ t) ∧
      h.p = r.at h.t ∧ h.n = normalize (r.at h.t - s.c) ∧ h.matId = s.matId ∧
      h.hit = true := by
  rw [Sphere.intersect_def] at hsome
  by_cases hd : sphDisc s r < 0
  · rw [if_pos hd] at hsome
    cases hsome
  · rw [if_neg hd] at hsome
    have hdisc : 0 ≤ sphDisc s r := not_lt.mp hd
    have hroots := onSphere_iff_roots s r (ne_of_gt ha) hdisc
    have h12 := sphT1_le_sphT2 s r ha
    by_cases h1 : sphT1 s r < tmin ∨ sphT1 s r > tmax
    · rw [if_pos h1] at hsome
      by_cases h2 : sphT2 s r < tmin ∨ sphT2 s r > tmax
      · rw [if_pos h2] at hsome
        cases hsome
      · rw [if_neg h2] at hsome
        push_neg at h2
        injection hsome with hh
        subst hh
        refine ⟨h2.1, h2.2, (hroots _).mpr (Or.inr rfl), ?_, rfl, rfl, rfl, rfl⟩
        intro t htmin htmax hon
        rcases (hroots t).mp hon with rfl | rfl
        · rcases h1 with hlt | hgt
          · exact absurd htmin (not_le.mpr hlt)
          · exact absurd htmax (not_le.mpr hgt)
        · exact le_refl _
    · rw [if_neg h1] at hsome
      push_neg at h1
      injection hsome with hh
      subst hh
      refine ⟨h1.1, h1.2, (hroots _).mpr (Or.inl rfl), ?_, rfl, rfl, rfl, rfl⟩
      intro t htmin htmax hon
      rcases (hroots t).mp hon with rfl | rfl
      · exact le_refl _
      · exact h12

theorem sphere_none_spec (s : Sphere) (r : Ray) (tmin tmax : ℝ)
    (ha : 0 < sphA r) (hnone : Sphere.intersect s r tmin tmax = none) :
    ∀ t, tmin ≤ t → t ≤ tmax → ¬ onSphere s r t := by
  intro t htmin htmax hon
  rw [Sphere.intersect_def] at hnone
  by_cases hd : sphDisc s r < 0
  · exact onSphere_no_roots s r hd t hon
  · rw [if_neg hd] at hnone
    have hdisc : 0 ≤ sphDisc s r := not_lt.mp hd
    have hroots := onSphere_iff_roots s r (ne_of_gt ha) hdisc
    by_cases h1 : sphT1 s r < tmin ∨ sphT1 s r > tmax
    · rw [if_pos h1] at hnone
      by_cases h2 : sphT2 s r < tmin ∨ sphT2 s r > tmax
      · rcases (hroots t).mp hon with rfl | rfl
        · rcases h1 with hlt | hgt
          · exact absurd htmin (not_le.mpr hlt)
          · exact absurd htmax (not_le.mpr hgt)
        · rcases h2 with hlt | hgt
          · exact absurd htmin (not_le.mpr hlt)
          · exact absurd htmax (not_le.mpr hgt)
      · rw [if_neg h2] at hnone
        cases hnone
    · rw [if_neg h1] at hnone
      cases hnone

theorem sceneStep_none {obj : Sphere} {r : Ray} {tmin c : ℝ} {flag : Bool} {best : Hit}
    (heq : Sphere.intersect obj r tmin c = none) :
    sceneStep r tmin (flag, c, best) obj = (flag, c, best) := by
  unfold sceneStep
  rw [heq]

theorem sceneStep_some {obj : Sphere} {r : Ray} {tmin c : ℝ} {flag : Bool} {best : Hit}
    {temp : Hit} (heq : Sphere.intersect obj r tmin c = some temp) :
    sceneStep r tmin (flag, c, best) obj = (true, temp.t, temp) := by
  unfold sceneStep
  rw [heq]

theorem sceneStep_flag_mono (r : Ray) (tmin : ℝ) (st : Bool × ℝ × Hit) (obj : Sphere)
    (h : st.1 = true) : (sceneStep r tmin st obj).1 = true := by
  unfold sceneStep
  cases heq : Sphere.intersect obj r tmin st.2.1 <;> simp [h]

theorem sceneFold_flag_mono (r : Ray) (tmin : ℝ) :
    ∀ (l : List Sphere) (st : Bool × ℝ × Hit), st.1 = true →
      (l.foldl (sceneStep r tmin) st).1 = true := by
  intro l
  induction l with
  | nil => intro st h; exact h
  | cons s l ih =>
    intro st h
    rw [List.foldl_cons]
    exact ih _ (sceneStep_flag_mono r tmin st s h)

theorem sceneFold_false_id (r : Ray) (tmin : ℝ) :
    ∀ (l : List Sphere) (st : Bool × ℝ × Hit),
      (l.foldl (sceneStep r tmin) st).1 = false →
      l.foldl (sceneStep r tmin) st = st := by
  intro l
  induction l with
  | nil => intro st _; rfl
  | cons s l ih =>
    intro st hfalse
    rw [List.foldl_cons] at hfalse ⊢
    rcases st with ⟨flag, c, best⟩
    cases heq : Sphere.intersect s r tmin c with
    | none =>
      rw [sceneStep_none heq] at hfalse ⊢
      exact ih _ hfalse
    | some temp =>
      rw [sceneStep_some heq] at hfalse
      have htrue := sceneFold_flag_mono r tmin l (true, temp.t, temp) rfl
      rw [htrue] at hfalse
      cases hfalse

theorem sceneFold_spec (r : Ray) (tmin tmax : ℝ) (ha : 0 < sphA r) :
    ∀ (l : List Sphere) (flag : Bool) (c : ℝ) (best : Hit) (fl2 : Bool) (c2 : ℝ)
      (b2 : Hit),
      (flag = false → c = tmax) →
      (flag = true → c = best.t ∧ tmin ≤ best.t ∧ best.t ≤ tmax) →
      l.foldl (sceneStep r tmin) (flag, c, best) = (fl2, c2, b2) →
      ((fl2 = false ↔
          flag = false ∧ ∀ s ∈ l, ∀ t, tmin ≤ t → t ≤ tmax → ¬ onSphere s r t) ∧
       (fl2 = true →
          c2 = b2.t ∧ tmin ≤ b2.t ∧ b2.t ≤ c ∧
          ((b2 = best ∧ flag = true) ∨ ∃ s ∈ l, onSphere s r b2.t) ∧
          (∀ s ∈ l, ∀ t, tmin ≤ t → t ≤ c → onSphere s r t → b2.t ≤ t))) := by
  intro l
  induction l with
  | nil =>
    intro flag c best fl2 c2 b2 H1 H2 hres
    rw [List.foldl_nil] at hres
    rw [Prod.mk.injEq, Prod.mk.injEq] at hres
    obtain ⟨hf, hc, hb⟩ := hres
    subst hf; subst hc; subst hb
    constructor
    · simp
    · intro htrue
      obtain ⟨hcb, hlo, hhi⟩ := H2 htrue
      exact ⟨hcb, hlo, hcb.ge, Or.inl ⟨rfl, htrue⟩, by simp⟩
  | cons s l ih =>
    intro flag c best fl2 c2 b2 H1 H2 hres
    rw [List.foldl_cons] at hres
    have hcmax : c ≤ tmax := by
      cases flag with
      | false => exact le_of_eq (H1 rfl)
      | true =>
        obtain ⟨hcb, _, hhi⟩ := H2 rfl
        rw [hcb]; exact hhi
    cases heq : Sphere.intersect s r tmin c with
    | none =>
      rw [sceneStep_none heq] at hres
      have IH := ih flag c best fl2 c2 b2 H1 H2 hres
      have hmiss := sphere_none_spec s r tmin c ha heq
      constructor
      · rw [IH.1]
        constructor
        · rintro ⟨hf, hall⟩
          refine ⟨hf, fun s' hs' => ?_⟩
          rcases List.mem_cons.mp hs' with rfl | hmem
          · intro t h1 h2 hon
            exact hmiss t h1 (le_of_le_of_eq h2 (H1 hf).symm) hon
          · exact hall s' hmem
        · rintro ⟨hf, hall⟩
          exact ⟨hf, fun s' hs' => hall s' (List.mem_cons_of_mem s hs')⟩
      · intro htrue
        obtain ⟨e1, e2, e3, e4, e5⟩ := IH.2 htrue
        refine ⟨e1, e2, e3, ?_, ?_⟩
        · rcases e4 with h | ⟨s', hs', hon⟩
          · exact Or.inl h
          · exact Or.inr ⟨s', List.mem_cons_of_mem s hs', hon⟩
        · intro s' hs' t h1 h2 hon
          rcases List.mem_cons.mp hs' with rfl | hmem
          · exact absurd hon (hmiss t h1 h2)
          · exact e5 s' hmem t h1 h2 hon
    | some temp =>
      rw [sceneStep_some heq] at hres
      have hspec := sphere_some_spec s r tmin c temp ha heq
      obtain ⟨hlo, hhi, hon, hmin, _, _, _, _⟩ := hspec
      have IH := ih true temp.t temp fl2 c2 b2 (fun h => by cases h)
        (fun _ => ⟨rfl, hlo, le_trans hhi hcmax⟩) hres
      refine ⟨?_, ?_⟩
      · constructor
        · intro h
          have := IH.1.mp h
          simp at this
        · rintro ⟨hf, hall⟩
          exact absurd hon (hall s (List.mem_cons_self s l) temp.t hlo
            (le_trans hhi hcmax))
      · intro htrue
        obtain ⟨e1, e2, e3, e4, e5⟩ := IH.2 htrue
        refine ⟨e1, e2, le_trans e3 hhi, ?_, ?_⟩
        · rcases e4 with ⟨hb, _⟩ | ⟨s', hs', hon'⟩
          · exact Or.inr ⟨s, List.mem_cons_self s l, hb ▸ hon⟩
          · exact Or.inr ⟨s', List.mem_cons_of_mem s hs', hon'⟩
        · intro s' hs' t h1 h2 honn
          rcases List.mem_cons.mp hs' with rfl | hmem
          · exact le_trans e3 (hmin t h1 h2 honn)
          · rcases le_or_lt t temp.t with hle | hlt
            · exact e5 s' hmem t h1 hle honn
            · exact le_trans e3 (le_of_lt hlt)

theorem scene_intersect_spec (objs : List Sphere) (r : Ray) (tmin tmax : ℝ)
    (best0 : Hit) (ha : 0 < dot r.d r.d) :
    ((Scene.intersect objs r tmin tmax best0).1 = true ↔
      ∃ s ∈ objs, ∃ t, tmin ≤ t ∧ t ≤ tmax ∧ onSphere s r t) ∧
    ((Scene.intersect objs r tmin tmax best0).1 = true →
      tmin ≤ (Scene.intersect objs r tmin tmax best0).2.t ∧
      (∃ s ∈ objs, onSphere s r (Scene.intersect objs r tmin tmax best0).2.t ∧
        (Scene.intersect objs r tmin tmax best0).2.t ≤ tmax) ∧
      ∀ s ∈ objs, ∀ t, tmin ≤ t → t ≤ tmax → onSphere s r t →
        (Scene.intersect objs r tmin tmax best0).2.t ≤ t) := by
  rcases hfold : objs.foldl (sceneStep r tmin) (false, tmax, best0) with ⟨fl2, c2, b2⟩
  have heq : Scene.intersect objs r tmin tmax best0 = (fl2, b2) := by
    unfold Scene.intersect
    rw [hfold]
  have spec := sceneFold_spec r tmin tmax ha objs false tmax best0 fl2 c2 b2
    (fun _ => rfl) (fun h => by cases h) hfold
  rw [heq]
  cases fl2 with
  | false =>
    constructor
    · apply iff_of_false (by simp)
      rintro ⟨s, hs, t, h1, h2, hon⟩
      exact (spec.1.mp rfl).2 s hs t h1 h2 hon
    · intro h
      cases h
  | true =>
    obtain ⟨e1, e2, e3, e4, e5⟩ := spec.2 rfl
    have hexists : ∃ s ∈ objs, onSphere s r b2.t := by
      rcases e4 with ⟨_, hff⟩ | h
      · cases hff
      · exact h
    constructor
    · apply iff_of_true rfl
      obtain ⟨s, hs, hon⟩ := hexists
      exact ⟨s, hs, b2.t, e2, e3, hon⟩
    · intro _
      obtain ⟨s, hs, hon⟩ := hexists
      exact ⟨e2, ⟨s, hs, hon, e3⟩, e5⟩

/-- Claim C10: when Scene::intersect returns false, the Hit out-parameter
best is returned exactly as it was passed in; it is overwritten only when
some object reports a hit. -/
theorem scene_intersect_false_best_unchanged (objs : List Sphere) (r : Ray)
    (tmin tmax : ℝ) (best0 : Hit)
    (h : (Scene.intersect objs r tmin tmax best0).1 = false) :
    (Scene.intersect objs r tmin tmax best0).2 = best0 := by
  have h2 : (objs.foldl (sceneStep r tmin) (false, tmax, best0)).1 = false := h
  have hst := sceneFold_false_id r tmin objs (false, tmax, best0) h2
  show (objs.foldl (sceneStep r tmin) (false, tmax, best0)).2.2 = best0
  rw [hst]

theorem sphere_intersect_cases (s : Sphere) (r : Ray) (tmin tmax : ℝ) :
    (sphDisc s r < 0 → Sphere.intersect s r tmin tmax = none) ∧
    (0 ≤ sphDisc s r → tmin ≤ sphT1 s r → sphT1 s r ≤ tmax →
      Sphere.intersect s r tmin tmax =
        some ⟨sphT1 s r, r.at (sphT1 s r), normalize (r.at (sphT1 s r) - s.c),
          s.matId, true⟩) ∧
    (0 ≤ sphDisc s r → ¬(tmin ≤ sphT1 s r ∧ sphT1 s r ≤ tmax) →
      tmin ≤ sphT2 s r → sphT2 s r ≤ tmax →
      Sphere.intersect s r tmin tmax =
        some ⟨sphT2 s r, r.at (sphT2 s r), normalize (r.at (sphT2 s r) - s.c),
          s.matId, true⟩) ∧
    (0 ≤ sphDisc s r → ¬(tmin ≤ sphT1 s r ∧ sphT1 s r ≤ tmax) →
      ¬(tmin ≤ sphT2 s r ∧ sphT2 s r ≤ tmax) →
      Sphere.intersect s r tmin tmax = none) := by
  refine ⟨?_, ?_, ?_, ?_⟩
  · intro hd
    rw [Sphere.intersect_def, if_pos hd]
  · intro hd h1 h2
    rw [Sphere.intersect_def, if_neg (not_lt.mpr hd),
      if_neg (by push_neg; exact ⟨h1, h2⟩)]
  · intro hd hn1 h1 h2
    have hcond : sphT1 s r < tmin ∨ sphT1 s r > tmax :=
      (not_and_or.mp hn1).imp not_le.mp not_le.mp
    rw [Sphere.intersect_def, if_neg (not_lt.mpr hd), if_pos hcond,
      if_neg (by push_neg; exact ⟨h1, h2⟩)]
  · intro hd hn1 hn2
    have hcond1 : sphT1 s r < tmin ∨ sphT1 s r > tmax :=
      (not_and_or.mp hn1).imp not_le.mp not_le.mp
    have hcond2 : sphT2 s r < tmin ∨ sphT2 s r > tmax :=
      (not_and_or.mp hn2).imp not_le.mp not_le.mp
    rw [Sphere.intersect_def, if_neg (not_lt.mpr hd), if_pos hcond1, if_pos hcond2]

/-- Claim C1: Scene::intersect (a linear scan over every owned object with a
shrinking upper bound closest starting at tMax and updated to each
accepted hit's t) returns true iff some owned object intersects the ray with
a parameter in [tMin, tMax], and on true the output Hit carries the minimal
such parameter t among all objects' intersections in the interval, with t no
less than tMin. -/
theorem scene_intersect_nearest_hit (objs : List Sphere) (r : Ray) (tmin tmax : ℝ)
    (best0 : Hit) (ha : 0 < dot r.d r.d) :
    ((Scene.intersect objs r tmin tmax best0).1 = true ↔
      ∃ s ∈ objs, ∃ t, tmin ≤ t ∧ t ≤ tmax ∧ onSphere s r t) ∧
    ((Scene.intersect objs r tmin tmax best0).1 = true →
      tmin ≤ (Scene.intersect objs r tmin tmax best0).2.t ∧
      (∃ s ∈ objs, onSphere s r (Scene.intersect objs r tmin tmax best0).2.t ∧
        (Scene.intersect objs r tmin tmax best0).2.t ≤ tmax) ∧
      ∀ s ∈ objs, ∀ t, tmin ≤ t → t ≤ tmax → onSphere s r t →
        (Scene.intersect objs r tmin tmax best0).2.t ≤ t) :=
  scene_intersect_spec objs r tmin tmax best0 ha

/-- Claim C2: Sphere::intersect computes b = dot(o-c,d), a = dot(d,d),
c2 = dot(o-c,o-c)-R*R, disc = b*b - a*c2; it returns no hit when disc < 0,
otherwise accepts the smaller root (-b-sqrt(disc))/a when it lies in the
inclusive interval [tMin,tMax], else the larger root (-b+sqrt(disc))/a when
that lies in [tMin,tMax], else no hit; on success the point is ray.at t, the
normal is normalize(p - c) and the material id is the sphere's matId. -/
theorem sphere_intersect_selection (s : Sphere) (r : Ray) (tmin tmax : ℝ) :
    (sphDisc s r < 0 → Sphere.intersect s r tmin tmax = none) ∧
    (0 ≤ sphDisc s r → tmin ≤ sphT1 s r → sphT1 s r ≤ tmax →
      Sphere.intersect s r tmin tmax =
        some ⟨sphT1 s r, r.at (sphT1 s r), normalize (r.at (sphT1 s r) - s.c),
          s.matId, true⟩) ∧
    (0 ≤ sphDisc s r → ¬(tmin ≤ sphT1 s r ∧ sphT1 s r ≤ tmax) →
      tmin ≤ sphT2 s r → sphT2 s r ≤ tmax →
      Sphere.intersect s r tmin tmax =
        some ⟨sphT2 s r, r.at (sphT2 s r), normalize (r.at (sphT2 s r) - s.c),
          s.matId, true⟩) ∧
    (0 ≤ sphDisc s r → ¬(tmin ≤ sphT1 s r ∧ sphT1 s r ≤ tmax) →
      ¬(tmin ≤ sphT2 s r ∧ sphT2 s r ≤ tmax) →
      Sphere.intersect s r tmin tmax = none) :=
  sphere_intersect_cases s r tmin tmax

theorem sqrt_four : Real.sqrt 4 = 2 := by
  rw [show (4 : ℝ) = 2 ^ 2 by norm_num, Real.sqrt_sq (by norm_num)]

/-- Reflective sphere at the origin used by the divergence scenario. -/
def mSphereA : Sphere := ⟨⟨0, 0, 0⟩, 1, 0⟩

/-- Reflective sphere at (0,0,4) used by the divergence scenario. -/
def mSphereB : Sphere := ⟨⟨0, 0, 4⟩, 1, 0⟩

/-- Two mutually facing reflective unit spheres with a single reflective
material and no lights. -/
def mirrorScene : Scene := ⟨[mSphereA, mSphereB], [⟨⟨0.8, 0.2, 0.2⟩, true⟩], []⟩

/-- Ray bouncing between the two spheres, outward leg. -/
def mRay0 : Ray := ⟨⟨0, 0, 3⟩, ⟨0, 0, -2⟩⟩

/-- Ray bouncing between the two spheres, return leg. -/
def mRay1 : Ray := ⟨⟨0, 0, 1⟩, ⟨0, 0, 2⟩⟩

/-- Hit of mRay0 on mSphereA. -/
def mHit0 : Hit := ⟨1, ⟨0, 0, 1⟩, ⟨0, 0, 1⟩, 0, true⟩

/-- Hit of mRay1 on mSphereB. -/
def mHit1 : Hit := ⟨1, ⟨0, 0, 3⟩, ⟨0, 0, -1⟩, 0, true⟩

theorem mEvalA0 : Sphere.intersect mSphereA mRay0 1e-6 1e9 = some mHit0 := by
  have hd : sphDisc mSphereA mRay0 = 4 := by
    norm_num [sphDisc, sphB, sphA, sphC2, dot, mSphereA, mRay0]
  have ht1 : sphT1 mSphereA mRay0 = 1 := by
    unfold sphT1
    rw [hd, sqrt_four]
    norm_num [sphB, sphA, dot, mSphereA, mRay0]
  have h := (sphere_intersect_cases mSphereA mRay0 1e-6 1e9).2.1
    (by rw [hd]; norm_num) (by rw [ht1]; norm_num) (by rw [ht1]; norm_num)
  rw [h, ht1]
  congr 1
  rw [show mRay0.at 1 = ⟨0, 0, 1⟩ by
    rw [Vec3.eq_iff]; norm_num [Ray.at, mRay0]]
  rw [show normalize ((⟨0, 0, 1⟩ : Vec3) - mSphereA.c) = ⟨0, 0, 1⟩ by
    rw [Vec3.eq_iff]
    norm_num [normalize, length, dot, mSphereA, Real.sqrt_one]]
  rfl

theorem normalize_unitZ : normalize ⟨0, 0, 1⟩ = ⟨0, 0, 1⟩ := by
  rw [Vec3.eq_iff]
  norm_num [normalize, length, dot, Real.sqrt_one]

theorem normalize_negZ : normalize ⟨0, 0, -1⟩ = ⟨0, 0, -1⟩ := by
  rw [Vec3.eq_iff]
  norm_num [normalize, length, dot, Real.sqrt_one]

theorem mEvalB0 : Sphere.intersect mSphereB mRay0 1e-6 1 = none := by
  have hd : sphDisc mSphereB mRay0 = 4 := by
    norm_num [sphDisc, sphB, sphA, sphC2, dot, mSphereB, mRay0]
  have ht1 : sphT1 mSphereB mRay0 = -1 := by
    unfold sphT1
    rw [hd, sqrt_four]
    norm_num [sphB, sphA, dot, mSphereB, mRay0]
  have ht2 : sphT2 mSphereB mRay0 = 0 := by
    unfold sphT2
    rw [hd, sqrt_four]
    norm_num [sphB, sphA, dot, mSphereB, mRay0]
  exact (sphere_intersect_cases mSphereB mRay0 1e-6 1).2.2.2
    (by rw [hd]; norm_num) (by rw [ht1]; norm_num) (by rw [ht2]; norm_num)

theorem mEvalA1 : Sphere.intersect mSphereA mRay1 1e-6 1e9 = none := by
  have hd : sphDisc mSphereA mRay1 = 4 := by
    norm_num [sphDisc, sphB, sphA, sphC2, dot, mSphereA, mRay1]
  have ht1 : sphT1 mSphereA mRay1 = -1 := by
    unfold sphT1
    rw [hd, sqrt_four]
    norm_num [sphB, sphA, dot, mSphereA, mRay1]
  have ht2 : sphT2 mSphereA mRay1 = 0 := by
    unfold sphT2
    rw [hd, sqrt_four]
    norm_num [sphB, sphA, dot, mSphereA, mRay1]
  exact (sphere_intersect_cases mSphereA mRay1 1e-6 1e9).2.2.2
    (by rw [hd]; norm_num) (by rw [ht1]; norm_num) (by rw [ht2]; norm_num)

theorem mEvalB1 : Sphere.intersect mSphereB mRay1 1e-6 1e9 = some mHit1 := by
  have hd : sphDisc mSphereB mRay1 = 4 := by
    norm_num [sphDisc, sphB, sphA, sphC2, dot, mSphereB, mRay1]
  have ht1 : sphT1 mSphereB mRay1 = 1 := by
    unfold sphT1
    rw [hd, sqrt_four]
    norm_num [sphB, sphA, dot, mSphereB, mRay1]
  have h := (sphere_intersect_cases mSphereB mRay1 1e-6 1e9).2.1
    (by rw [hd]; norm_num) (by rw [ht1]; norm_num) (by rw [ht1]; norm_num)
  rw [h, ht1]
  congr 1
  rw [show mRay1.at 1 = ⟨0, 0, 3⟩ by
    rw [Vec3.eq_iff]; norm_num [Ray.at, mRay1]]
  rw [show (⟨0, 0, 3⟩ : Vec3) - mSphereB.c = ⟨0, 0, -1⟩ by
    rw [Vec3.eq_iff]; norm_num [mSphereB]]
  rw [normalize_negZ]
  rfl

theorem mScene0 :
    Scene.intersect mirrorScene.objects mRay0 1e-6 1e9 defaultHit = (true, mHit0) := by
  show Scene.intersect [mSphereA, mSphereB] mRay0 1e-6 1e9 defaultHit = (true, mHit0)
  unfold Scene.intersect
  rw [List.foldl_cons, sceneStep_some mEvalA0, show mHit0.t = 1 from rfl,
    List.foldl_cons, sceneStep_none mEvalB0, List.foldl_nil]

theorem mScene1 :
    Scene.intersect mirrorScene.objects mRay1 1e-6 1e9 defaultHit = (true, mHit1) := by
  show Scene.intersect [mSphereA, mSphereB] mRay1 1e-6 1e9 defaultHit = (true, mHit1)
  unfold Scene.intersect
  rw [List.foldl_cons, sceneStep_none mEvalA1, List.foldl_cons,
    sceneStep_some mEvalB1, List.foldl_nil]

theorem mRefl0 : reflRay mHit0 mRay0 = mRay1 := by
  unfold reflRay
  rw [show mHit0.n = ⟨0, 0, 1⟩ from rfl, normalize_unitZ]
  rw [show mRay1 = ⟨⟨0, 0, 1⟩, ⟨0, 0, 2⟩⟩ from rfl]
  rw [Ray.mk.injEq]
  refine ⟨rfl, ?_⟩
  rw [Vec3.eq_iff]
  norm_num [dot, mHit0, mRay0]

theorem mRefl1 : reflRay mHit1 mRay1 = mRay0 := by
  unfold reflRay
  rw [show mHit1.n = ⟨0, 0, -1⟩ from rfl, normalize_negZ]
  rw [show mRay0 = ⟨⟨0, 0, 3⟩, ⟨0, 0, -2⟩⟩ from rfl]
  rw [Ray.mk.injEq]
  refine ⟨rfl, ?_⟩
  rw [Vec3.eq_iff]
  norm_num [dot, mHit1, mRay1]

theorem mStep0 (n : ℕ) : traceF mirrorScene (n + 1) mRay0 = traceF mirrorScene n mRay1 := by
  simp only [traceF, mScene0, mRefl0]
  norm_num [mirrorScene, mHit0]

theorem mStep1 (n : ℕ) : traceF mirrorScene (n + 1) mRay1 = traceF mirrorScene n mRay0 := by
  simp only [traceF, mScene1, mRefl1]
  norm_num [mirrorScene, mHit1]

theorem mirror_diverges (n : ℕ) :
    traceF mirrorScene n mRay0 = none ∧ traceF mirrorScene n mRay1 = none := by
  induction n with
  | zero => exact ⟨rfl, rfl⟩
  | succ n ih => exact ⟨(mStep0 n).trans ih.2, (mStep1 n).trans ih.1⟩

/-- Claim C3: when the hit material is reflective, shade returns the traced
mirror-reflection ray directly with no local lighting contribution, and no
recursion-depth limit exists: for the two facing reflective spheres of
mirrorScene and the ray mRay0 the mutual recursion of trace, shade and
reflect never terminates (the fuel-indexed model exhausts every finite
amount of fuel). -/
theorem reflective_shade_recurses_unbounded :
    (∀ (sc : Scene) (n : ℕ) (h : Hit) (r : Ray),
      (sc.materials.getD h.matId defaultMaterial).reflective = true →
      shadeF sc n h r = traceF sc n (reflRay h r)) ∧
    (∀ n, traceF mirrorScene n mRay0 = none) := by
  constructor
  · intro sc n h r hrefl
    simp only [shadeF, hrefl, if_true]
  · intro n
    exact (mirror_diverges n).1

/-- Witness for C3 at concrete inputs: the reflective material of
mirrorScene makes shade defer to trace of the reflected ray, and five units
of fuel are exhausted without an answer. -/
theorem reflective_shade_recurses_unbounded_witness :
    shadeF mirrorScene 3 mHit0 mRay0 = traceF mirrorScene 3 (reflRay mHit0 mRay0) ∧
    traceF mirrorScene 5 mRay0 = none :=
  ⟨reflective_shade_recurses_unbounded.1 mirrorScene 3 mHit0 mRay0 rfl,
   reflective_shade_recurses_unbounded.2 5⟩

theorem vadd_zero (v : Vec3) : v + 0 = v := by
  rw [Vec3.eq_iff]; norm_num

theorem vzero_add (v : Vec3) : 0 + v = v := by
  rw [Vec3.eq_iff]; norm_num

theorem vadd_assoc (a b c : Vec3) : a + b + c = a + (b + c) := by
  rw [Vec3.eq_iff]
  refine ⟨?_, ?_, ?_⟩ <;> simp <;> ring

theorem vsum_nil : ([] : List Vec3).sum = 0 := rfl

theorem vsum_cons (v : Vec3) (l : List Vec3) : (v :: l).sum = v + l.sum := rfl

/-- Empty scene used for witnesses. -/
def emptyScene : Scene := ⟨[], [], []⟩

/-- Scene with one non-reflective material and no lights. -/
def lambertScene : Scene := ⟨[], [⟨⟨0.5, 0.5, 0.5⟩, false⟩], []⟩

/-- Point light used for witnesses. -/
def wLight : PointLight := ⟨⟨0, 0, 1⟩, ⟨1, 1, 1⟩⟩

/-- Vertical ray used for witnesses. -/
def upRay : Ray := ⟨⟨0, 0, 0⟩, ⟨0, 1, 0⟩⟩

theorem foldl_if_sum (P : PointLight → Bool) (f : PointLight → Vec3) :
    ∀ (l : List PointLight) (init : Vec3),
      l.foldl (fun c L => if P L then c else c + f L) init =
        init + ((l.filter fun L => !P L).map f).sum := by
  intro l
  induction l with
  | nil =>
    intro init
    show init = init + ([] : List Vec3).sum
    rw [vsum_nil, vadd_zero]
  | cons L l ih =>
    intro init
    rw [List.foldl_cons]
    by_cases hP : P L = true
    · rw [if_pos hP, ih]
      have hfil : (L :: l).filter (fun L => !P L) = l.filter (fun L => !P L) := by
        simp [List.filter_cons, hP]
      rw [hfil]
    · have hPf : P L = false := Bool.eq_false_iff.mpr hP
      rw [if_neg hP, ih]
      have hfil : (L :: l).filter (fun L => !P L) = L :: l.filter (fun L => !P L) := by
        simp [List.filter_cons, hPf]
      rw [hfil, List.map_cons, vsum_cons, vadd_assoc]

theorem directLight_eq_sum (sc : Scene) (albedo : Vec3) (h : Hit) :
    directLight sc albedo h =
      ((sc.lights.filter fun L => !inShadow sc h.p h.n L).map
        (fun L => hadamard albedo
          (L.intensity / (4 * Real.pi * dot (L.pos - h.p) (L.pos - h.p))) *
          max 0 (dot h.n (normalize (L.pos - h.p))))).sum := by
  have key := foldl_if_sum (fun L => inShadow sc h.p h.n L)
    (fun L => hadamard albedo
      (L.intensity / (4 * Real.pi * dot (L.pos - h.p) (L.pos - h.p))) *
      max 0 (dot h.n (normalize (L.pos - h.p)))) sc.lights 0
  refine Eq.trans ?_ (Eq.trans key ?_)
  · rfl
  · rw [vzero_add]

/-- Claim C4: when the scene query over (1e-6, 1e9) reports no hit, trace
returns exactly the linear blend of white and light blue determined by the
normalized y-component of the ray direction. -/
theorem trace_miss_sky (sc : Scene) (r : Ray) (n : ℕ)
    (hmiss : (Scene.intersect sc.objects r 1e-6 1e9 defaultHit).1 = false) :
    traceF sc (n + 1) r =
      some ((1 - 0.5 * ((normalize r.d).y + 1)) * (⟨1, 1, 1⟩ : Vec3) +
        (0.5 * ((normalize r.d).y + 1)) * (⟨0.6, 0.8, 1.0⟩ : Vec3)) := by
  simp only [traceF, hmiss]
  rfl

/-- Witness for C4: the empty scene misses the vertical ray and trace paints
the pure light-blue end of the sky gradient. -/
theorem trace_miss_sky_witness : traceF emptyScene 1 upRay = some ⟨0.6, 0.8, 1.0⟩ := by
  have h := trace_miss_sky emptyScene upRay 0 rfl
  rw [h]
  congr 1
  have hn : normalize upRay.d = ⟨0, 1, 0⟩ := by
    rw [show upRay.d = ⟨0, 1, 0⟩ from rfl, Vec3.eq_iff]
    norm_num [normalize, length, dot, Real.sqrt_one]
  rw [hn, Vec3.eq_iff]
  norm_num

/-- Claim C5: for a non-reflective hit, shade returns the sum over the
non-occluded point lights of albedo ⊙ (intensity / (4π·distance²)) times
max(0, dot(normal, lightDir)); occluded lights contribute nothing, and with
no lights the result is the zero color. -/
theorem shade_direct_lighting_sum (sc : Scene) (n : ℕ) (h : Hit) (r : Ray)
    (hrefl : (sc.materials.getD h.matId defaultMaterial).reflective = false) :
    shadeF sc n h r =
      some (((sc.lights.filter fun L => !inShadow sc h.p h.n L).map
        (fun L => hadamard (sc.materials.getD h.matId defaultMaterial).albedo
          (L.intensity / (4 * Real.pi * dot (L.pos - h.p) (L.pos - h.p))) *
          max 0 (dot h.n (normalize (L.pos - h.p))))).sum) ∧
    (sc.lights = [] → shadeF sc n h r = some 0) := by
  have hmain : shadeF sc n h r =
      some (directLight sc (sc.materials.getD h.matId defaultMaterial).albedo h) := by
    simp only [shadeF, hrefl, Bool.false_eq_true, if_false]
  constructor
  · rw [hmain, directLight_eq_sum]
  · intro hl
    rw [hmain, directLight_eq_sum, hl]
    rfl

/-- Witness for C5: a scene with no lights shades a non-reflective hit to the
zero color. -/
theorem shade_direct_lighting_sum_witness : shadeF lambertScene 2 mHit0 mRay0 = some 0 :=
  (shade_direct_lighting_sum lambertScene 2 mHit0 mRay0 rfl).2 rfl

theorem vsub_ne_zero {a b : Vec3} (h : a ≠ b) : a - b ≠ 0 := by
  intro hc
  apply h
  rw [Vec3.eq_iff] at hc ⊢
  simp only [Vec3.sub_x, Vec3.sub_y, Vec3.sub_z, Vec3.zero_x, Vec3.zero_y,
    Vec3.zero_z] at hc
  exact ⟨sub_eq_zero.mp hc.1, sub_eq_zero.mp hc.2.1, sub_eq_zero.mp hc.2.2⟩

theorem dot_normalize_self (v : Vec3) (hv : v ≠ 0) :
    dot (normalize v) (normalize v) = 1 := by
  have hpos := dot_self_pos v hv
  have hlen : 0 < length v := Real.sqrt_pos.mpr hpos
  have hk : length v * length v = dot v v := Real.mul_self_sqrt (dot_self_nonneg v)
  unfold normalize
  have expand : dot (v / length v) (v / length v) = dot v v / (length v * length v) := by
    unfold dot
    simp only [Vec3.divk_x, Vec3.divk_y, Vec3.divk_z]
    field_simp
  rw [expand, hk, div_self (ne_of_gt hpos)]

theorem length_normalize (v : Vec3) (hv : v ≠ 0) : length (normalize v) = 1 := by
  unfold length
  rw [dot_normalize_self v hv, Real.sqrt_one]

/-- Claim C6: inShadow casts a ray with origin p + n*1e-4 and unit direction
toward the light, and returns true iff the scene reports an intersection of
that ray with a parameter between 0 and distanceToLight - 1e-5. -/
theorem inShadow_spec (sc : Scene) (p n : Vec3) (L : PointLight) (hne : L.pos ≠ p) :
    (shadowRay p n L).o = p + n * epsR ∧
    length (shadowRay p n L).d = 1 ∧
    (inShadow sc p n L = true ↔
      ∃ s ∈ sc.objects, ∃ t, 0 ≤ t ∧ t ≤ length (L.pos - p) - 1e-5 ∧
        onSphere s (shadowRay p n L) t) := by
  have hvne : L.pos - p ≠ 0 := vsub_ne_zero hne
  refine ⟨rfl, ?_, ?_⟩
  · show length (normalize (L.pos - p)) = 1
    exact length_normalize _ hvne
  · have hone : dot (normalize (L.pos - p)) (normalize (L.pos - p)) = 1 :=
      dot_normalize_self _ hvne
    have hd : 0 < dot (shadowRay p n L).d (shadowRay p n L).d := by
      show 0 < dot (normalize (L.pos - p)) (normalize (L.pos - p))
      rw [hone]
      norm_num
    exact (scene_intersect_spec sc.objects (shadowRay p n L) 0
      (length (L.pos - p) - 1e-5) defaultHit hd).1

/-- Witness for C6: the shadow ray toward wLight from the origin has unit
direction. -/
theorem inShadow_spec_witness : length (shadowRay 0 ⟨0, 1, 0⟩ wLight).d = 1 :=
  (inShadow_spec emptyScene 0 ⟨0, 1, 0⟩ wLight
    (by intro hc; rw [Vec3.eq_iff] at hc; norm_num [wLight] at hc)).2.1

/-- Claim C7: each channel of the averaged pixel color goes through Reinhard
compression c/(1+c), then gamma encoding c^(1/2.2), then clamping to [0,1],
then quantization by multiplication with 255.99 and truncation, in that
order; every emitted byte is at most 255. -/
theorem tone_map_pipeline (c : ℝ) :
    quantizeChannel 2.2 c =
      ⌊max 0 (min ((max 0 (c / (1 + c))) ^ ((1 : ℝ) / 2.2)) 1) * 255.99⌋₊ ∧
    quantizeChannel 2.2 c ≤ 255 := by
  constructor
  · rfl
  · have hcl : clamp (toSRGB 2.2 (reinhard c)) 0 1 ≤ 1 := by
      unfold clamp
      exact max_le (by norm_num) (min_le_right _ _)
    have hmul : clamp (toSRGB 2.2 (reinhard c)) 0 1 * 255.99 ≤ 255.99 := by
      nlinarith [hcl]
    unfold quantizeChannel
    refine le_trans (Nat.floor_le_floor hmul) ?_
    rw [show ⌊(255.99 : ℝ)⌋₊ = 255 from ?_]
    · rw [Nat.floor_eq_iff (by norm_num)]
      norm_num

theorem dot_zero_right (v : Vec3) : dot v 0 = 0 := by
  unfold dot
  norm_num

theorem vsub_zero (v : Vec3) : v - 0 = v := by
  rw [Vec3.eq_iff]; norm_num

theorem normalize_zero : normalize (0 : Vec3) = 0 := by
  rw [Vec3.eq_iff]
  norm_num [normalize, length, dot]

theorem reflect_preserves_length (v w : Vec3) (hw : dot w w = 1) :
    length (v - (2 * dot v w) * w) = length v := by
  unfold length
  congr 1
  have expand : dot (v - (2 * dot v w) * w) (v - (2 * dot v w) * w) =
      dot v v - 4 * (dot v w) * (dot v w) + 4 * (dot v w) * (dot v w) * (dot w w) := by
    unfold dot
    simp only [Vec3.sub_x, Vec3.sub_y, Vec3.sub_z, Vec3.smul_x, Vec3.smul_y, Vec3.smul_z]
    ring
  rw [expand, hw]
  ring

/-- Counterexample for C8: the ray built inside Renderer::reflect for the
concrete hit mHit0 of mRay0 has direction of length 2, not 1, so not every
ray constructed by the core has a unit direction. -/
theorem ray_unit_direction_counterexample :
    length (reflRay mHit0 mRay0).d = 2 ∧ length (reflRay mHit0 mRay0).d ≠ 1 := by
  have h2 : length (reflRay mHit0 mRay0).d = 2 := by
    rw [mRefl0]
    show length (⟨0, 0, 2⟩ : Vec3) = 2
    unfold length dot
    norm_num [sqrt_four]
  exact ⟨h2, by rw [h2]; norm_num⟩

/-- Claim C8 as amended: camera primary rays and inShadow shadow rays have
unit direction at construction (whenever the normalized vector is nonzero,
resp. the light is away from the surface point), but the mirror-reflection
ray of Renderer::reflect keeps the unnormalized reflected in_vec: its
direction length equals length(h.p - r.o), which is not 1 in general. -/
theorem ray_unit_direction_amended :
    (∀ (cam : Camera) (sx sy : ℝ),
      -cam.w + (sx * cam.halfW) * cam.u + (sy * cam.halfH) * cam.v ≠ 0 →
      length (Camera.primary cam sx sy).d = 1) ∧
    (∀ (p n : Vec3) (L : PointLight), L.pos ≠ p → length (shadowRay p n L).d = 1) ∧
    (∀ (h : Hit) (r : Ray), length (reflRay h r).d = length (h.p - r.o)) := by
  refine ⟨?_, ?_, ?_⟩
  · intro cam sx sy hne
    show length (normalize (-cam.w + (sx * cam.halfW) * cam.u +
      (sy * cam.halfH) * cam.v)) = 1
    exact length_normalize _ hne
  · intro p n L hne
    show length (normalize (L.pos - p)) = 1
    exact length_normalize _ (vsub_ne_zero hne)
  · intro h r
    show length ((h.p - r.o) -
      (2 * dot (h.p - r.o) (normalize h.n)) * normalize h.n) = length (h.p - r.o)
    by_cases hn : h.n = 0
    · rw [hn, normalize_zero, dot_zero_right,
        show (2 * (0 : ℝ)) * (0 : Vec3) = (0 : Vec3) by rw [Vec3.eq_iff]; norm_num,
        vsub_zero]
    · exact reflect_preserves_length _ _ (dot_normalize_self h.n hn)

/-- Camera used for the C8 witness: 90 degree fov, square image, axis
aligned. -/
noncomputable def wCam : Camera := mkCamera ⟨0, 0, 0⟩ ⟨0, 0, -1⟩ ⟨0, 1, 0⟩ 90 1 1

theorem wCam_w : wCam.w = ⟨0, 0, 1⟩ := by
  show normalize ((⟨0, 0, 0⟩ : Vec3) - ⟨0, 0, -1⟩) = ⟨0, 0, 1⟩
  rw [show (⟨0, 0, 0⟩ : Vec3) - ⟨0, 0, -1⟩ = ⟨0, 0, 1⟩ by rw [Vec3.eq_iff]; norm_num]
  exact normalize_unitZ

/-- Witness for the amended C8 at concrete inputs: the central primary ray of
wCam and a concrete shadow ray are unit, and the concrete reflected ray's
length equals the in-vector's length. -/
theorem ray_unit_direction_amended_witness :
    length (Camera.primary wCam 0 0).d = 1 ∧
    length (shadowRay ⟨1, 0, 0⟩ ⟨0, 1, 0⟩ wLight).d = 1 ∧
    length (reflRay mHit0 mRay0).d = length (mHit0.p - mRay0.o) := by
  refine ⟨?_, ?_, ?_⟩
  · apply ray_unit_direction_amended.1 wCam 0 0
    rw [wCam_w]
    intro hc
    rw [Vec3.eq_iff] at hc
    simp only [Vec3.add_x, Vec3.add_y, Vec3.add_z, Vec3.neg_x, Vec3.neg_y, Vec3.neg_z,
      Vec3.smul_x, Vec3.smul_y, Vec3.smul_z, Vec3.zero_x, Vec3.zero_y, Vec3.zero_z] at hc
    norm_num at hc
  · exact ray_unit_direction_amended.2.1 ⟨1, 0, 0⟩ ⟨0, 1, 0⟩ wLight
      (by intro hc; rw [Vec3.eq_iff] at hc; norm_num [wLight] at hc)
  · exact ray_unit_direction_amended.2.2 mHit0 mRay0

/-- Claim C9: a ray whose line passes through the center of a sphere of
positive radius, starting outside the sphere with the center ahead and with
bounds that allow the first intersection, yields a hit with strictly positive
parameter, a normal pointing away from the center, and a point exactly on
the sphere surface. -/
theorem sphere_through_center_hit (s : Sphere) (r : Ray) (tmin tmax k : ℝ)
    (hd : r.d ≠ 0) (hR : 0 < s.R) (hk : 0 < k) (hC : s.c = r.o + k * r.d)
    (hout : s.R < length (r.o - s.c))
    (h1 : tmin ≤ k - s.R / Real.sqrt (dot r.d r.d))
    (h2 : k - s.R / Real.sqrt (dot r.d r.d) ≤ tmax) :
    ∃ h : Hit, Sphere.intersect s r tmin tmax = some h ∧ 0 < h.t ∧
      0 < dot (h.p - s.c) h.n ∧ length (h.p - s.c) = s.R := by
  have ha : 0 < sphA r := dot_self_pos r.d hd
  have hsa : 0 < Real.sqrt (sphA r) := Real.sqrt_pos.mpr ha
  have hsa2 : Real.sqrt (sphA r) * Real.sqrt (sphA r) = sphA r :=
    Real.mul_self_sqrt ha.le
  have hb : sphB s r = -k * sphA r := by
    unfold sphB sphA
    rw [hC]
    unfold dot
    simp only [Vec3.sub_x, Vec3.sub_y, Vec3.sub_z, Vec3.add_x, Vec3.add_y, Vec3.add_z,
      Vec3.smul_x, Vec3.smul_y, Vec3.smul_z]
    ring
  have hoc : dot (r.o - s.c) (r.o - s.c) = k * k * sphA r := by
    rw [hC]
    unfold sphA dot
    simp only [Vec3.sub_x, Vec3.sub_y, Vec3.sub_z, Vec3.add_x, Vec3.add_y, Vec3.add_z,
      Vec3.smul_x, Vec3.smul_y, Vec3.smul_z]
    ring
  have hc2 : sphC2 s r = k * k * sphA r - s.R * s.R := by
    unfold sphC2
    rw [hoc]
  have hdisc : sphDisc s r = sphA r * (s.R * s.R) := by
    unfold sphDisc
    rw [hb, hc2]
    ring
  have hdisc0 : 0 ≤ sphDisc s r := by
    rw [hdisc]
    exact mul_nonneg ha.le (mul_self_nonneg s.R)
  have hsd : Real.sqrt (sphDisc s r) = Real.sqrt (sphA r) * s.R := by
    rw [hdisc, Real.sqrt_mul ha.le, Real.sqrt_mul_self hR.le]
  have ht1 : sphT1 s r = k - s.R / Real.sqrt (sphA r) := by
    unfold sphT1
    rw [hb, hsd, div_eq_iff (ne_of_gt ha)]
    field_simp
    linear_combination (-(s.R)) * hsa2
  have hlen : length (r.o - s.c) = k * Real.sqrt (sphA r) := by
    unfold length
    rw [hoc, show k * k * sphA r =
      (k * Real.sqrt (sphA r)) * (k * Real.sqrt (sphA r)) by
        linear_combination (k * k) * hsa2.symm]
    exact Real.sqrt_mul_self (by positivity)
  have htpos : 0 < sphT1 s r := by
    rw [ht1]
    rw [hlen] at hout
    have hq : s.R / Real.sqrt (sphA r) < k := by
      rw [div_lt_iff₀ hsa]
      linarith [hout]
    have : s.R / Real.sqrt (dot r.d r.d) < k := hq
    linarith [this]
  have hsome := (sphere_intersect_cases s r tmin tmax).2.1 hdisc0
    (by rw [ht1]; exact h1) (by rw [ht1]; exact h2)
  have honn : onSphere s r (sphT1 s r) :=
    (onSphere_iff_roots s r (ne_of_gt ha) hdisc0 _).mpr (Or.inl rfl)
  have honn2 : dot (r.at (sphT1 s r) - s.c) (r.at (sphT1 s r) - s.c) =
      s.R * s.R := honn
  have hlenp : length (r.at (sphT1 s r) - s.c) = s.R := by
    unfold length
    rw [honn2]
    exact Real.sqrt_mul_self hR.le
  have hdotn : dot (r.at (sphT1 s r) - s.c)
      (normalize (r.at (sphT1 s r) - s.c)) = s.R := by
    unfold normalize
    rw [hlenp]
    have hsplit : dot (r.at (sphT1 s r) - s.c) ((r.at (sphT1 s r) - s.c) / s.R) =
        dot (r.at (sphT1 s r) - s.c) (r.at (sphT1 s r) - s.c) / s.R := by
      unfold dot
      simp only [Vec3.divk_x, Vec3.divk_y, Vec3.divk_z]
      ring
    rw [hsplit, honn2, mul_div_assoc, div_self (ne_of_gt hR), mul_one]
  refine ⟨_, hsome, ?_, ?_, ?_⟩
  · exact htpos
  · show 0 < dot (r.at (sphT1 s r) - s.c) (normalize (r.at (sphT1 s r) - s.c))
    rw [hdotn]
    exact hR
  · exact hlenp

/-- Witness for C1: on the single-sphere scene the boolean result of
Scene::intersect characterizes the existence of an on-sphere parameter in
the query window. -/
theorem scene_intersect_nearest_hit_witness :
    (Scene.intersect [mSphereA] mRay0 1e-6 1e9 defaultHit).1 = true ↔
      ∃ s ∈ [mSphereA], ∃ t, 1e-6 ≤ t ∧ t ≤ 1e9 ∧ onSphere s mRay0 t :=
  (scene_intersect_nearest_hit [mSphereA] mRay0 1e-6 1e9 defaultHit
    (by norm_num [dot, mRay0])).1

/-- Witness for C2: the concrete sphere and ray take the smaller-root branch
of the root-selection contract. -/
theorem sphere_intersect_selection_witness :
    Sphere.intersect mSphereA mRay0 1e-6 1e9 =
      some ⟨sphT1 mSphereA mRay0, mRay0.at (sphT1 mSphereA mRay0),
        normalize (mRay0.at (sphT1 mSphereA mRay0) - mSphereA.c),
        mSphereA.matId, true⟩ := by
  have hdv : sphDisc mSphereA mRay0 = 4 := by
    norm_num [sphDisc, sphB, sphA, sphC2, dot, mSphereA, mRay0]
  have htv : sphT1 mSphereA mRay0 = 1 := by
    unfold sphT1
    rw [hdv, sqrt_four]
    norm_num [sphB, sphA, dot, mSphereA, mRay0]
  exact (sphere_intersect_selection mSphereA mRay0 1e-6 1e9).2.1
    (by rw [hdv]; norm_num) (by rw [htv]; norm_num) (by rw [htv]; norm_num)

/-- Sphere centered two units down the negative z axis, used by the C9
witness. -/
def cSphere : Sphere := ⟨⟨0, 0, -2⟩, 1, 0⟩

/-- Ray from the origin straight through cSphere's center. -/
def cRay : Ray := ⟨⟨0, 0, 0⟩, ⟨0, 0, -1⟩⟩

/-- Witness for C9: the axial ray through cSphere's center yields a hit with
positive parameter, outward normal and a point on the surface. -/
theorem sphere_through_center_hit_witness :
    ∃ h : Hit, Sphere.intersect cSphere cRay 1e-6 1e9 = some h ∧ 0 < h.t ∧
      0 < dot (h.p - cSphere.c) h.n ∧ length (h.p - cSphere.c) = cSphere.R := by
  apply sphere_through_center_hit cSphere cRay 1e-6 1e9 2
  · intro hc
    rw [show cRay.d = ⟨0, 0, -1⟩ from rfl, Vec3.eq_iff] at hc
    norm_num at hc
  · norm_num [cSphere]
  · norm_num
  · rw [Vec3.eq_iff]
    norm_num [cSphere, cRay]
  · rw [show cRay.o - cSphere.c = ⟨0, 0, 2⟩ by rw [Vec3.eq_iff]; norm_num [cSphere, cRay]]
    unfold length dot
    norm_num [sqrt_four, cSphere]
  · norm_num [cSphere, cRay, dot, Real.sqrt_one]
  · norm_num [cSphere, cRay, dot, Real.sqrt_one]

/-- Witness for C10: an empty object list reports no hit and hands back the
untouched best record. -/
theorem scene_intersect_false_best_unchanged_witness :
    (Scene.intersect [] mRay0 1 2 defaultHit).2 = defaultHit :=
  scene_intersect_false_best_unchanged [] mRay0 1 2 defaultHit rfl

end RT
